import Mathlib

/-!
# Verification of `doit.ts` (railway-postgres-s3-backups)

Shallow embedding of the backup pipeline in `src/doit.ts`:
`createBackup` (the backup producer), `uploadToS3` (the uploader),
`scheduleBackup` (the scheduler) and `performBackup` / `initialize`
(the orchestrator and startup path).

External effects (the `pg_dump | gzip` subprocess, the filesystem, the
S3 client, the node-cron library) are modelled as explicit behaviour
inputs: a `DumpBehavior` describes what the subprocess run did to the
world (its exit status, its stderr output, the state of the destination
file afterwards, and whether a later `unlinkSync` of that file would
succeed), a `Bool` describes whether the S3 put succeeds, and a `Bool`
describes whether node-cron accepts the cadence expression.  The
embedded functions return explicit result records carrying the
propagated error or value, the final existence of the staging file, the
recorded uploader invocations and the log events, so that the testable
properties of the specification can be stated and settled.
-/

namespace Doit

/-- Result of `fs.statSync` on the destination file: whether it is a
regular file, and its byte size. -/
structure FileStats where
  isFile : Bool
  size : Nat
deriving Repr, DecidableEq

/-- Behaviour of one `pg_dump ... | gzip > file` subprocess invocation,
as observed by `createBackup`:
* `execOk`    — the promise returned by `execPromise` resolved
                (exit status zero) rather than rejected;
* `stderr`    — the captured standard-error output;
* `fileAfter` — the state of the destination file after the call
                (`none`: no file exists, so `statSync` throws and
                `existsSync` is false; `some st`: the path exists with
                stats `st`);
* `unlinkOk`  — whether `fs.unlinkSync` on the destination file would
                succeed (it can throw, e.g. on permissions). -/
structure DumpBehavior where
  execOk : Bool
  stderr : String
  fileAfter : Option FileStats
  unlinkOk : Bool
deriving Repr, DecidableEq

/-- The distinct error values `createBackup` can propagate:
* `execFailed`       — `execPromise` rejected (non-zero exit status);
* `dumpFailed s`     — the locally thrown `pg_dump error: <stderr>`;
* `statFailed`       — `fs.statSync` threw (destination path absent);
* `validationFailed` — the locally thrown
                       `Backup file is empty or too small, likely failed`. -/
inductive BackupError where
  | execFailed
  | dumpFailed (stderr : String)
  | statFailed
  | validationFailed
deriving Repr, DecidableEq

/-- The error thrown by `cron.schedule` on a malformed cadence
expression. -/
inductive ScheduleError where
  | invalidSchedule
deriving Repr, DecidableEq

/-- The console log events of `doit.ts`, in program order. -/
inductive LogEvent where
  | creatingBackup (dbName : String)
  | dumpStderrLog (s : String)
  | backupCreated (filePath : String) (size : Nat)
  | errorCreatingBackup
  | removedInvalidBackup (filePath : String)
  | failedToRemoveInvalidBackup
  | uploadingToS3
  | uploadedToS3 (key : String)
  | errorUploadingToS3
  | startingBackupProcess
  | backupCompleted
  | removedLocalBackup (filePath : String)
  | backupProcessFailed
  | schedulingBackups (expr : String)
  | schedulerRunning
  | urlNotSet
  | invalidCronInterval
deriving Repr, DecidableEq

/-- JavaScript truthiness of an environment variable: `undefined` and
the empty string are falsy, every other string is truthy. -/
def truthy : Option String → Bool
  | none => false
  | some s => s != ""

/-- JavaScript `String.prototype.trim`: the string with leading and
trailing whitespace removed. -/
def jsTrim (s : String) : String :=
  String.mk (((s.data.dropWhile Char.isWhitespace).reverse.dropWhile
    Char.isWhitespace).reverse)

/-- Character-list splitting on a separator, the semantics of
JavaScript `String.prototype.split` with a one-character separator
(always returns at least one, possibly empty, segment). -/
def splitChar (sep : Char) : List Char → List (List Char)
  | [] => [[]]
  | c :: cs =>
    if c = sep then [] :: splitChar sep cs
    else
      match splitChar sep cs with
      | [] => [[c]]
      | h :: t => (c :: h) :: t

/-- `databaseUrl.split('/').pop() || 'database'` from line 17 of
`doit.ts`: the last segment of the `/`-split, with the JS `||`
replacing an empty segment by the fallback `"database"`. -/
def dbName (databaseUrl : String) : String :=
  let last := (splitChar '/' databaseUrl.data).getLastD []
  if last = [] then "database" else String.mk last

/-- Modelled from the spec: "the tail segment of the connection string
(the part after the last '/')", defined independently of `split`/`pop`
as the longest slash-free suffix of the string.  Used only to compare
the spec's wording of the label derivation with `dbName`. -/
def tailSegment (s : String) : String :=
  String.mk ((s.data.reverse.takeWhile (fun c => c != '/')).reverse)

/-- `timestamp.replace(/[:.]/g, '-')` from line 18 of `doit.ts`:
every colon and period of the ISO-8601 timestamp becomes a hyphen. -/
def sanitizeTimestamp (iso : String) : String :=
  String.mk (iso.data.map (fun c => if c = ':' ∨ c = '.' then '-' else c))

/-- The destination file name built on line 19 of `doit.ts`:
`backup-${dbName}-${timestamp}.sql.gz`, where `timestamp` is the
sanitized ISO-8601 timestamp. -/
def backupFilename (db iso : String) : String :=
  "backup-" ++ db ++ "-" ++ sanitizeTimestamp iso ++ ".sql.gz"

/-- `path.join(process.cwd(), 'backups', filename)` from line 20. -/
def backupFilePath (cwd filename : String) : String :=
  cwd ++ "/backups/" ++ filename

deriving instance DecidableEq for Except

/-- Outcome of one `createBackup` invocation: the value returned or the
error propagated to the caller, whether the destination (staging) file
exists once the call has finished, and the log events emitted. -/
structure CreateResult where
  result : Except BackupError (String × String)
  fileExists : Bool
  log : List LogEvent
deriving Repr, DecidableEq

/-- The producer `createBackup` of `doit.ts` (lines 15-63).  `cwd` is
`process.cwd()`, `databaseUrl` the connection string, `iso` the ISO
string of `new Date()` taken at the call, and `b` the behaviour of the
`pg_dump | gzip` subprocess and of the filesystem.

The body follows the source: derive the label and file name, run the
subprocess; inside the `try`, throw on a rejected exec, throw
`pg_dump error: ...` when stderr is truthy and trims non-empty, stat
the destination file (throwing when it is absent), throw
`Backup file is empty or too small, likely failed` when it is not a
regular file or under 20 bytes, otherwise log the size and return the
path and name.  The `catch` logs the error, and when the destination
path exists tries to `unlinkSync` it, logging (and swallowing) a
failure of the unlink itself, then rethrows the original error.

`dumpAttempt` below is the body of the `try` block (lines 32-46): the
subprocess call, the stderr check and the stat/size validation, giving
either the stats of the validated destination file or the error that
the block throws; `createBackup` wraps it with the label and file-name
derivation and with the `catch` block. -/
def dumpAttempt (b : DumpBehavior) : Except BackupError FileStats :=
  if !b.execOk then .error .execFailed
  else if b.stderr != "" && jsTrim b.stderr != "" then
    .error (.dumpFailed b.stderr)
  else
    match b.fileAfter with
    | none => .error .statFailed
    | some st =>
      if !st.isFile || st.size < 20 then .error .validationFailed
      else .ok st

def createBackup (cwd databaseUrl iso : String) (b : DumpBehavior) :
    CreateResult :=
  let db := dbName databaseUrl
  let filename := backupFilename db iso
  let filePath := backupFilePath cwd filename
  let log0 := [LogEvent.creatingBackup db]
  match dumpAttempt b with
  | .ok st =>
    { result := .ok (filePath, filename)
      fileExists := true
      log := log0 ++ [.backupCreated filePath st.size] }
  | .error e =>
    let stderrLog : List LogEvent :=
      match e with
      | .dumpFailed s => [.dumpStderrLog s]
      | _ => []
    if b.fileAfter.isSome then
      if b.unlinkOk then
        { result := .error e
          fileExists := false
          log := log0 ++ stderrLog ++
            [.errorCreatingBackup, .removedInvalidBackup filePath] }
      else
        { result := .error e
          fileExists := true
          log := log0 ++ stderrLog ++
            [.errorCreatingBackup, .failedToRemoveInvalidBackup] }
    else
      { result := .error e
        fileExists := false
        log := log0 ++ stderrLog ++ [.errorCreatingBackup] }

/-- Outcome of one `performBackup` invocation: `exitCode = some 1`
models `process.exit(1)` (the JS function never ends normally with a
non-`none` code otherwise), `fileExists` is whether the staging file
exists afterwards, `uploads` records each `uploadToS3` invocation as
the `(filePath, filename)` pair it received, and `dumpAttempts` counts
the `createBackup` invocations. -/
structure RunResult where
  exitCode : Option Nat
  fileExists : Bool
  uploads : List (String × String)
  dumpAttempts : Nat
  log : List LogEvent
deriving Repr, DecidableEq

/-- The orchestrator `performBackup` of `doit.ts` (lines 108-129).
`databaseUrl` is `process.env.BACKUP_DATABASE_URL` (`none` = unset),
`uploadOk` is whether the single S3 put of `uploadToS3` succeeds, and
`cleanupUnlinkOk` is whether the final `fs.unlinkSync(filePath)` of the
success path succeeds.

The body follows the source: throw when the URL is falsy; run
`createBackup`; on its success call `uploadToS3` with the returned path
and name (recorded in `uploads` whether or not the put then fails); on
upload success log completion and unlink the local file.  Any error
reaching the `catch` is logged and turns into `process.exit(1)`;
nothing on that path deletes the staging file. -/
def performBackup (cwd iso : String) (databaseUrl : Option String)
    (b : DumpBehavior) (uploadOk cleanupUnlinkOk : Bool) : RunResult :=
  if !truthy databaseUrl then
    { exitCode := some 1
      fileExists := false
      uploads := []
      dumpAttempts := 0
      log := [.backupProcessFailed] }
  else
    let url := databaseUrl.getD ""
    let c := createBackup cwd url iso b
    match c.result with
    | .error _ =>
      { exitCode := some 1
        fileExists := c.fileExists
        uploads := []
        dumpAttempts := 1
        log := [.startingBackupProcess] ++ c.log ++ [.backupProcessFailed] }
    | .ok (filePath, filename) =>
      if uploadOk then
        if cleanupUnlinkOk then
          { exitCode := none
            fileExists := false
            uploads := [(filePath, filename)]
            dumpAttempts := 1
            log := [.startingBackupProcess] ++ c.log ++
              [.uploadingToS3, .uploadedToS3 filename, .backupCompleted,
               .removedLocalBackup filePath] }
        else
          { exitCode := some 1
            fileExists := true
            uploads := [(filePath, filename)]
            dumpAttempts := 1
            log := [.startingBackupProcess] ++ c.log ++
              [.uploadingToS3, .uploadedToS3 filename, .backupCompleted,
               .backupProcessFailed] }
      else
        { exitCode := some 1
          fileExists := c.fileExists
          uploads := [(filePath, filename)]
          dumpAttempts := 1
          log := [.startingBackupProcess] ++ c.log ++
            [.uploadingToS3, .errorUploadingToS3, .backupProcessFailed] }

/-- The scheduler `scheduleBackup` of `doit.ts` (lines 96-105).
`cronValid` is whether node-cron accepts the cadence expression
(`cron.schedule` throws on a malformed pattern, before registering any
trigger).  Returns whether a recurring trigger was registered as the
`Except` value, plus the log events. -/
def scheduleBackup (expr : String) (cronValid : Bool) :
    Except ScheduleError Unit × List LogEvent :=
  if cronValid then
    (.ok (), [.schedulingBackups expr, .schedulerRunning])
  else
    (.error .invalidSchedule, [.schedulingBackups expr])

/-- The environment variables read by `initialize`. -/
structure InitEnv where
  backupDatabaseUrl : Option String
  cronJobInterval : Option String
  runOnStartup : Option String
deriving Repr, DecidableEq

/-- Outcome of `initialize`: `exitCode = some 1` models the
`process.exit(1)` on a missing URL, `scheduled` is whether a recurring
cron trigger was registered, `immediateRuns` counts the `performBackup`
invocations made directly at registration time. -/
structure InitResult where
  exitCode : Option Nat
  scheduled : Bool
  immediateRuns : Nat
  log : List LogEvent
deriving Repr, DecidableEq

/-- The startup function `initialize` of `doit.ts` (lines 131-149).
The body follows the source: exit with status 1 when
`BACKUP_DATABASE_URL` is falsy; when `CRON_JOB_INTERVAL` is truthy and
trims non-empty, call `scheduleBackup` inside a `try`, catching and
logging a schedule error; when `RUN_ON_STARTUP === 'true'`, invoke
`performBackup` once. -/
def initMain (env : InitEnv) (cronValid : Bool) : InitResult :=
  if !truthy env.backupDatabaseUrl then
    { exitCode := some 1, scheduled := false, immediateRuns := 0
      log := [.urlNotSet] }
  else
    let (sched, slog) :=
      match env.cronJobInterval with
      | some s =>
        if s != "" && jsTrim s != "" then
          match scheduleBackup s cronValid with
          | (.ok _, l) => (true, l)
          | (.error _, l) => (false, l ++ [.invalidCronInterval])
        else (false, ([] : List LogEvent))
      | none => (false, [])
    let runs := if env.runOnStartup = some "true" then 1 else 0
    { exitCode := none, scheduled := sched, immediateRuns := runs
      log := slog }

/-! ## Helper lemmas about `splitChar` and `takeWhile` -/

theorem takeWhile_concat_neg {α : Type} {p : α → Bool} {a : α} (xs : List α)
    (h : p a = false) : (xs ++ [a]).takeWhile p = xs.takeWhile p := by
  induction xs with
  | nil => simp [List.takeWhile, h]
  | cons x xs ih =>
    simp only [List.cons_append, List.takeWhile_cons]
    cases hx : p x <;> simp [ih]

theorem takeWhile_append_of_exists {α : Type} {p : α → Bool} {xs : List α}
    (ys : List α) (h : ∃ a ∈ xs, p a = false) :
    (xs ++ ys).takeWhile p = xs.takeWhile p := by
  induction xs with
  | nil => simp at h
  | cons x xs ih =>
    simp only [List.cons_append, List.takeWhile_cons]
    cases hx : p x with
    | false => rfl
    | true =>
      obtain ⟨a, ha, hpa⟩ := h
      rcases List.mem_cons.mp ha with rfl | ha'
      · rw [hx] at hpa; exact absurd hpa (by simp)
      · rw [ih ⟨a, ha', hpa⟩]

theorem splitChar_ne_nil (sep : Char) (l : List Char) : splitChar sep l ≠ [] := by
  induction l with
  | nil => simp [splitChar]
  | cons c cs ih =>
    simp only [splitChar]
    split
    · simp
    · split <;> simp

theorem splitChar_of_not_mem {sep : Char} {l : List Char} (h : sep ∉ l) :
    splitChar sep l = [l] := by
  induction l with
  | nil => rfl
  | cons c cs ih =>
    have hc : ¬c = sep := fun e => h (by simp [e])
    have hcs : sep ∉ cs := fun m => h (List.mem_cons_of_mem _ m)
    simp only [splitChar, if_neg hc, ih hcs]

theorem eq_of_splitChar_singleton {sep : Char} {l x : List Char}
    (h : splitChar sep l = [x]) : x = l ∧ sep ∉ l := by
  induction l generalizing x with
  | nil =>
    simp only [splitChar] at h
    obtain rfl : x = [] := by simpa using h.symm
    simp
  | cons c cs ih =>
    by_cases hc : c = sep
    · subst hc
      have h1 : splitChar c (c :: cs) = [] :: splitChar c cs := by
        simp [splitChar]
      rw [h1] at h
      injection h with h2 h3
      exact absurd h3 (splitChar_ne_nil c cs)
    · cases hcs : splitChar sep cs with
      | nil => exact absurd hcs (splitChar_ne_nil sep cs)
      | cons hh tt =>
        have h1 : splitChar sep (c :: cs) = (c :: hh) :: tt := by
          simp only [splitChar, if_neg hc, hcs]
        rw [h1] at h
        injection h with h2 h3
        subst h3
        obtain ⟨rfl, hmem⟩ := ih hcs
        refine ⟨h2.symm, fun hm => ?_⟩
        rcases List.mem_cons.mp hm with e | e
        · exact hc e.symm
        · exact hmem e

theorem getLastD_splitChar (sep : Char) (l : List Char) :
    (splitChar sep l).getLastD [] =
      (l.reverse.takeWhile (fun c => c != sep)).reverse := by
  induction l with
  | nil => rfl
  | cons c cs ih =>
    by_cases hc : c = sep
    · subst hc
      have h1 : splitChar c (c :: cs) = [] :: splitChar c cs := by
        simp [splitChar]
      rw [h1, List.getLastD_cons, ih, List.reverse_cons,
        takeWhile_concat_neg _ (by simp)]
    · have hne := splitChar_ne_nil sep cs
      obtain ⟨hh, tt, heq⟩ : ∃ hh tt, splitChar sep cs = hh :: tt := by
        cases hcs : splitChar sep cs with
        | nil => exact absurd hcs hne
        | cons hh tt => exact ⟨hh, tt, rfl⟩
      have h1 : splitChar sep (c :: cs) = (c :: hh) :: tt := by
        simp only [splitChar, if_neg hc, heq]
      rw [h1, List.reverse_cons]
      cases tt with
      | nil =>
        obtain ⟨rfl, hmem⟩ := eq_of_splitChar_singleton heq
        have hall : ∀ a ∈ hh.reverse, (a != sep) = true := by
          intro a ha
          have : a ∈ hh := List.mem_reverse.mp ha
          simp only [bne_iff_ne, ne_eq]
          exact fun e => hmem (e ▸ this)
        rw [List.takeWhile_append_of_pos hall]
        simp [List.getLastD, List.takeWhile_cons, hc]
      | cons hh' tt' =>
        have hmem : sep ∈ cs := by
          by_contra hm
          rw [splitChar_of_not_mem hm] at heq
          simp at heq
        have hstop : ((cs.reverse ++ [c]).takeWhile (fun c => c != sep))
            = cs.reverse.takeWhile (fun c => c != sep) :=
          takeWhile_append_of_exists _
            ⟨sep, List.mem_reverse.mpr hmem, by simp⟩
        rw [hstop, ← ih, heq]
        simp only [List.getLastD_cons]

/-- The label derivation of line 17 agrees with the spec's description:
the tail segment when that segment is non-empty, the fallback
`"database"` when the string ends in `/` or is empty (no path
segment). -/
theorem dbName_eq_spec (s : String) :
    dbName s = if tailSegment s = "" then "database" else tailSegment s := by
  have h := getLastD_splitChar '/' s.data
  have hdata : (tailSegment s).data
      = (s.data.reverse.takeWhile (fun c => c != '/')).reverse := rfl
  have hempty : tailSegment s = "" ↔
      (s.data.reverse.takeWhile (fun c => c != '/')).reverse = [] := by
    rw [show ("" : String) = String.mk [] from rfl]
    constructor
    · intro he
      have := congrArg String.data he
      rwa [hdata] at this
    · intro he
      exact congrArg String.mk (hdata.trans he)
  unfold dbName
  rw [h]
  by_cases he : tailSegment s = ""
  · rw [if_pos (hempty.mp he), if_pos he]
  · rw [if_neg (fun e => he (hempty.mpr e)), if_neg he]
    exact congrArg String.mk hdata.symm

/-! ## Claims -/

/-- C4: For every connection string, the derived database label is the
tail segment of the string (the part after the last `/`), and the
fallback label `"database"` is used when the string has no path
segment, i.e. when that tail segment is empty. -/
theorem claim_C4 (s : String) :
    (tailSegment s ≠ "" → dbName s = tailSegment s) ∧
    (tailSegment s = "" → dbName s = "database") := by
  rw [dbName_eq_spec s]
  constructor <;> intro h <;> simp [h]

/-- Witness for C4 at a connection string with a path segment and at
one without. -/
theorem claim_C4_witness :
    (tailSegment "postgres://user:pw@host:5432/mydb" ≠ "" ∧
     dbName "postgres://user:pw@host:5432/mydb"
       = tailSegment "postgres://user:pw@host:5432/mydb") ∧
    (tailSegment "postgres://host/" = "" ∧
     dbName "postgres://host/" = "database") :=
  ⟨⟨by decide, (claim_C4 "postgres://user:pw@host:5432/mydb").1 (by decide)⟩,
   ⟨by decide, (claim_C4 "postgres://host/").2 (by decide)⟩⟩

/-- C6: For every database label and every ISO-8601 timestamp, the
derived backup file name is a pure, deterministic function of the label
and the timestamp (it is the function `backupFilename`): it is exactly
the concatenation `backup-`, label, `-`, sanitized timestamp,
`.sql.gz`; the sanitized timestamp contains no colon and no period
(each was replaced by the filesystem-safe `-`); and the name carries
the `.sql.gz` extension. -/
theorem claim_C6 (label iso : String) :
    (backupFilename label iso).data
        = "backup-".data ++ (label.data ++ ("-".data ++
          ((sanitizeTimestamp iso).data ++ ".sql.gz".data))) ∧
    (∀ c ∈ (sanitizeTimestamp iso).data, c ≠ ':' ∧ c ≠ '.') ∧
    ".sql.gz".data <:+ (backupFilename label iso).data := by
  refine ⟨?_, ?_, ?_⟩
  · simp [backupFilename, String.data_append, List.append_assoc]
  · intro c hc
    rw [show (sanitizeTimestamp iso).data
        = iso.data.map (fun c => if c = ':' ∨ c = '.' then '-' else c)
      from rfl] at hc
    obtain ⟨x, hx, rfl⟩ := List.mem_map.mp hc
    by_cases hxc : x = ':' ∨ x = '.'
    · simp only [if_pos hxc]
      exact ⟨by decide, by decide⟩
    · push_neg at hxc
      simp [hxc.1, hxc.2]
  · exact ⟨("backup-" ++ label ++ "-" ++ sanitizeTimestamp iso).data, rfl⟩

/-- Witness for C6 at a concrete label and timestamp. -/
theorem claim_C6_witness :
    ".sql.gz".data <:+ (backupFilename "mydb" "2024-05-05T10:20:30.123Z").data :=
  (claim_C6 "mydb" "2024-05-05T10:20:30.123Z").2.2

/-- Shared description of the `catch` block of `createBackup`: when the
`try` body throws `e`, the call propagates exactly `e`, and the staging
file survives exactly when it existed and its `unlinkSync` failed. -/
theorem createBackup_error (cwd url iso : String) (b : DumpBehavior)
    (e : BackupError) (h : dumpAttempt b = .error e) :
    (createBackup cwd url iso b).result = .error e ∧
    (createBackup cwd url iso b).fileExists
      = (b.fileAfter.isSome && !b.unlinkOk) := by
  unfold createBackup
  rw [h]
  cases hfa : b.fileAfter.isSome <;> cases hun : b.unlinkOk <;>
    simp [hfa, hun]

/-- C2 (amended): whenever the dump subprocess exits with status zero
and its stderr output is non-empty after trimming whitespace, the
producer fails with the `pg_dump error` (`DumpFailed`) error, and —
provided the deletion of the staging file succeeds — the staging file
does not exist after the failure.  (The un-amended claim fails on
whitespace-only stderr, which the `stderr.trim() !== ''` check lets
through.) -/
theorem claim_C2 (cwd url iso : String) (b : DumpBehavior)
    (hexec : b.execOk = true) (hstderr : jsTrim b.stderr ≠ "") :
    (createBackup cwd url iso b).result = .error (.dumpFailed b.stderr) ∧
    (b.unlinkOk = true → (createBackup cwd url iso b).fileExists = false) := by
  have hne : b.stderr ≠ "" := by
    intro e
    apply hstderr
    rw [e]
    rfl
  have hd : dumpAttempt b = .error (.dumpFailed b.stderr) := by
    unfold dumpAttempt
    rw [hexec]
    simp [hne, hstderr]
  have h := createBackup_error cwd url iso b _ hd
  refine ⟨h.1, fun hu => ?_⟩
  rw [h.2, hu]
  simp

/-- Counterexample to C2 as stated: the stderr output `" "` is
non-empty, yet with exit status zero and a valid 100-byte destination
file the producer succeeds instead of failing with `DumpFailed`,
because the source only treats stderr as an error when it trims
non-empty. -/
theorem claim_C2_counterexample :
    (" " : String) ≠ "" ∧
    (createBackup "/app" "host/db" "2024-05-05T10:20:30.123Z"
        ⟨true, " ", some ⟨true, 100⟩, true⟩).result
      = .ok ("/app/backups/backup-db-2024-05-05T10-20-30-123Z.sql.gz",
             "backup-db-2024-05-05T10-20-30-123Z.sql.gz") :=
  ⟨by decide, by decide⟩

/-- Witness for C2 at a concrete dump run with real stderr output. -/
theorem claim_C2_witness :
    (createBackup "/app" "host/db" "T"
        ⟨true, "fatal: db down", some ⟨true, 100⟩, true⟩).result
      = .error (.dumpFailed "fatal: db down") ∧
    (createBackup "/app" "host/db" "T"
        ⟨true, "fatal: db down", some ⟨true, 100⟩, true⟩).fileExists = false := by
  have h := claim_C2 "/app" "host/db" "T"
    ⟨true, "fatal: db down", some ⟨true, 100⟩, true⟩ rfl (by decide)
  exact ⟨h.1, h.2 rfl⟩

/-- C3 (amended): whenever the dump subprocess returns cleanly (exit
status zero, no stderr) but the destination file is not a regular file
or is smaller than 20 bytes, the producer fails with the
`Backup file is empty or too small` (`ValidationFailed`) error, and —
provided the deletion of the staging file succeeds — no staging file is
left behind.  (The un-amended claim fails when the deletion itself
fails: the source catches that error and leaves the file.) -/
theorem claim_C3 (cwd url iso : String) (b : DumpBehavior) (st : FileStats)
    (hexec : b.execOk = true) (hstderr : b.stderr = "")
    (hfile : b.fileAfter = some st)
    (hbad : st.isFile = false ∨ st.size < 20) :
    (createBackup cwd url iso b).result = .error .validationFailed ∧
    (b.unlinkOk = true → (createBackup cwd url iso b).fileExists = false) := by
  have hd : dumpAttempt b = .error .validationFailed := by
    unfold dumpAttempt
    rw [hexec, hstderr, hfile]
    rcases hbad with h | h <;> simp [h]
  have h := createBackup_error cwd url iso b _ hd
  refine ⟨h.1, fun hu => ?_⟩
  rw [h.2, hu]
  simp

/-- Counterexample to C3 as stated: a clean dump whose 5-byte
destination file fails validation, but whose `unlinkSync` throws; the
producer propagates `ValidationFailed`, yet the staging file is still
left behind. -/
theorem claim_C3_counterexample :
    (createBackup "/app" "host/db" "T"
        ⟨true, "", some ⟨true, 5⟩, false⟩).result
      = .error .validationFailed ∧
    (createBackup "/app" "host/db" "T"
        ⟨true, "", some ⟨true, 5⟩, false⟩).fileExists = true :=
  ⟨by decide, by decide⟩

/-- Witness for C3 at a concrete undersized dump with working
deletion. -/
theorem claim_C3_witness :
    (createBackup "/app" "host/db" "T"
        ⟨true, "", some ⟨true, 3⟩, true⟩).result
      = .error .validationFailed ∧
    (createBackup "/app" "host/db" "T"
        ⟨true, "", some ⟨true, 3⟩, true⟩).fileExists = false := by
  have h := claim_C3 "/app" "host/db" "T" ⟨true, "", some ⟨true, 3⟩, true⟩
    ⟨true, 3⟩ rfl rfl rfl (Or.inr (by decide))
  exact ⟨h.1, h.2 rfl⟩

/-- C10: on every failure path of the producer, when the staging file
exists but deleting it throws, the deletion error is caught and only
logged (`Failed to remove invalid backup file`), and the original dump
or validation error `e` — not the deletion error — is the one
propagated to the caller. -/
theorem claim_C10 (cwd url iso : String) (b : DumpBehavior)
    (e : BackupError) (hfail : dumpAttempt b = .error e)
    (hfile : b.fileAfter.isSome = true) (hunlink : b.unlinkOk = false) :
    (createBackup cwd url iso b).result = .error e ∧
    LogEvent.failedToRemoveInvalidBackup ∈ (createBackup cwd url iso b).log := by
  refine ⟨(createBackup_error cwd url iso b e hfail).1, ?_⟩
  unfold createBackup
  rw [hfail]
  simp [hfile, hunlink]

/-- Witness for C10 at a concrete dump failure whose cleanup deletion
also fails. -/
theorem claim_C10_witness :
    (createBackup "/app" "host/db" "T"
        ⟨true, "oops", some ⟨true, 100⟩, false⟩).result
      = .error (.dumpFailed "oops") ∧
    LogEvent.failedToRemoveInvalidBackup ∈
      (createBackup "/app" "host/db" "T"
        ⟨true, "oops", some ⟨true, 100⟩, false⟩).log :=
  claim_C10 "/app" "host/db" "T" ⟨true, "oops", some ⟨true, 100⟩, false⟩
    (.dumpFailed "oops") (by decide) rfl rfl

/-- Shared description of the success path of `createBackup`: when the
`try` body validates the file with stats `st`, the call returns the
derived path and name, leaves the staging file in place for the
uploader, and logs the exact byte size. -/
theorem createBackup_ok (cwd url iso : String) (b : DumpBehavior)
    (st : FileStats) (h : dumpAttempt b = .ok st) :
    createBackup cwd url iso b =
      { result := .ok (backupFilePath cwd (backupFilename (dbName url) iso),
                       backupFilename (dbName url) iso)
        fileExists := true
        log := [.creatingBackup (dbName url),
                .backupCreated
                  (backupFilePath cwd (backupFilename (dbName url) iso))
                  st.size] } := by
  unfold createBackup
  rw [h]
  rfl

/-- C1 (amended): every failed pipeline run makes the process exit with
status 1.  When the failure is the configuration check, nothing was
written; when it is the dump or validation stage, the staging directory
contains no artifact from the run provided the producer's deletion of
the partial file succeeds.  A run that fails at the upload or local
cleanup stage still exits with status 1, but the un-amended claim fails
there: the orchestrator's `catch` does not delete the staging file, so
the artifact survives an upload failure. -/
theorem claim_C1 (cwd iso : String) (url : Option String) (b : DumpBehavior)
    (uploadOk cleanupOk : Bool) :
    (truthy url = false →
      (performBackup cwd iso url b uploadOk cleanupOk).exitCode = some 1 ∧
      (performBackup cwd iso url b uploadOk cleanupOk).fileExists = false) ∧
    (∀ e, truthy url = true → dumpAttempt b = .error e →
      (performBackup cwd iso url b uploadOk cleanupOk).exitCode = some 1 ∧
      (b.unlinkOk = true →
        (performBackup cwd iso url b uploadOk cleanupOk).fileExists = false)) ∧
    (∀ st, truthy url = true → dumpAttempt b = .ok st →
      (uploadOk = false ∨ cleanupOk = false) →
      (performBackup cwd iso url b uploadOk cleanupOk).exitCode = some 1) := by
  refine ⟨fun h => ?_, fun e htru herr => ?_, fun st htru hok hfail => ?_⟩
  · simp [performBackup, h]
  · have hce := createBackup_error cwd (url.getD "") iso b e herr
    refine ⟨?_, fun hu => ?_⟩
    · simp [performBackup, htru, hce.1]
    · simp [performBackup, htru, hce.1, hce.2, hu]
  · have hc := createBackup_ok cwd (url.getD "") iso b st hok
    rcases hfail with h | h <;> subst h
    · simp [performBackup, htru, hc]
    · cases uploadOk <;> simp [performBackup, htru, hc]

/-- Counterexample to C1 as stated: a run whose dump and validation
succeed (clean 100-byte file) but whose S3 upload fails exits with
status 1, yet the staging file still exists — a failed pipeline run
after which the staging directory does contain the run's artifact. -/
theorem claim_C1_counterexample :
    (performBackup "/app" "T" (some "host/db")
        ⟨true, "", some ⟨true, 100⟩, true⟩ false true).exitCode = some 1 ∧
    (performBackup "/app" "T" (some "host/db")
        ⟨true, "", some ⟨true, 100⟩, true⟩ false true).fileExists = true :=
  ⟨by decide, by decide⟩

/-- Witness for C1 at a concrete run whose dump subprocess exits
non-zero. -/
theorem claim_C1_witness :
    (performBackup "/app" "T" (some "host/db")
        ⟨false, "", none, true⟩ true true).exitCode = some 1 ∧
    (performBackup "/app" "T" (some "host/db")
        ⟨false, "", none, true⟩ true true).fileExists = false := by
  have h := (claim_C1 "/app" "T" (some "host/db") ⟨false, "", none, true⟩
      true true).2.1 BackupError.execFailed (by decide) (by decide)
  exact ⟨h.1, h.2 rfl⟩

/-- C5: whenever the dump subprocess emits no stderr and the resulting
file is a regular file of at least 20 bytes, the producer returns the
artifact's file path and file name and logs the exact byte size; and
after a successful end-to-end run (upload and local deletion succeed)
the staging file no longer exists and the uploader was invoked exactly
once, with that artifact's path and name. -/
theorem claim_C5 (cwd iso url : String) (b : DumpBehavior) (st : FileStats)
    (hurl : url ≠ "") (hexec : b.execOk = true) (hstderr : b.stderr = "")
    (hfile : b.fileAfter = some st) (hreg : st.isFile = true)
    (hsize : 20 ≤ st.size) :
    (createBackup cwd url iso b).result
      = .ok (backupFilePath cwd (backupFilename (dbName url) iso),
             backupFilename (dbName url) iso) ∧
    LogEvent.backupCreated
        (backupFilePath cwd (backupFilename (dbName url) iso)) st.size
      ∈ (createBackup cwd url iso b).log ∧
    (performBackup cwd iso (some url) b true true).exitCode = none ∧
    (performBackup cwd iso (some url) b true true).fileExists = false ∧
    (performBackup cwd iso (some url) b true true).uploads
      = [(backupFilePath cwd (backupFilename (dbName url) iso),
          backupFilename (dbName url) iso)] := by
  have hd : dumpAttempt b = .ok st := by
    unfold dumpAttempt
    rw [hexec, hstderr, hfile]
    simp [hreg, Nat.not_lt.mpr hsize]
  have hc := createBackup_ok cwd url iso b st hd
  have htru : truthy (some url) = true := by simp [truthy, hurl]
  refine ⟨?_, ?_, ?_, ?_, ?_⟩ <;> simp [performBackup, hc, htru]

/-- Witness for C5 at a concrete clean 1234-byte dump. -/
theorem claim_C5_witness :
    (performBackup "/app" "2024-05-05T10:20:30.123Z" (some "host/db")
        ⟨true, "", some ⟨true, 1234⟩, true⟩ true true).exitCode = none ∧
    (performBackup "/app" "2024-05-05T10:20:30.123Z" (some "host/db")
        ⟨true, "", some ⟨true, 1234⟩, true⟩ true true).fileExists = false ∧
    (performBackup "/app" "2024-05-05T10:20:30.123Z" (some "host/db")
        ⟨true, "", some ⟨true, 1234⟩, true⟩ true true).uploads
      = [("/app/backups/backup-db-2024-05-05T10-20-30-123Z.sql.gz",
          "backup-db-2024-05-05T10-20-30-123Z.sql.gz")] := by
  have h := claim_C5 "/app" "2024-05-05T10:20:30.123Z" "host/db"
    ⟨true, "", some ⟨true, 1234⟩, true⟩ ⟨true, 1234⟩
    (by decide) rfl rfl rfl rfl (by decide)
  exact ⟨h.2.2.1, h.2.2.2.1, by rw [h.2.2.2.2]; decide⟩

/-- C9: whenever `BACKUP_DATABASE_URL` is absent, the startup path
exits with status 1 having registered no trigger and run no pipeline,
and a pipeline run exits with status 1 before attempting any dump or
upload. -/
theorem claim_C9 (cwd iso : String) (env : InitEnv) (b : DumpBehavior)
    (uploadOk cleanupOk cronValid : Bool)
    (henv : env.backupDatabaseUrl = none) :
    (initMain env cronValid).exitCode = some 1 ∧
    (initMain env cronValid).scheduled = false ∧
    (initMain env cronValid).immediateRuns = 0 ∧
    (performBackup cwd iso none b uploadOk cleanupOk).exitCode = some 1 ∧
    (performBackup cwd iso none b uploadOk cleanupOk).dumpAttempts = 0 ∧
    (performBackup cwd iso none b uploadOk cleanupOk).uploads = [] := by
  refine ⟨?_, ?_, ?_, ?_, ?_, ?_⟩ <;>
    simp [initMain, performBackup, henv, truthy]

/-- Witness for C9 at a concrete environment with the URL unset. -/
theorem claim_C9_witness :
    (initMain ⟨none, some "0 2 * * *", some "true"⟩ true).exitCode = some 1 ∧
    (performBackup "/app" "T" none ⟨true, "", some ⟨true, 100⟩, true⟩
        true true).dumpAttempts = 0 := by
  have h := claim_C9 "/app" "T" ⟨none, some "0 2 * * *", some "true"⟩
    ⟨true, "", some ⟨true, 100⟩, true⟩ true true true rfl
  exact ⟨h.1, h.2.2.2.2.1⟩

/-- C7: with a valid cadence expression registered at startup, a
run-on-startup flag different from `'true'` performs zero immediate
pipeline runs, and the flag `'true'` performs exactly one immediate run
at registration time. -/
theorem claim_C7 (env : InitEnv) (u s : String)
    (hurl : env.backupDatabaseUrl = some u) (hu : u ≠ "")
    (hcron : env.cronJobInterval = some s) (hs : jsTrim s ≠ "") :
    (initMain env true).scheduled = true ∧
    (env.runOnStartup ≠ some "true" → (initMain env true).immediateRuns = 0) ∧
    (env.runOnStartup = some "true" → (initMain env true).immediateRuns = 1) := by
  have hs0 : s ≠ "" := by
    intro e
    apply hs
    rw [e]
    rfl
  refine ⟨?_, fun h => ?_, fun h => ?_⟩
  · simp [initMain, truthy, hurl, hu, hcron, hs0, hs, scheduleBackup]
  · simp [initMain, truthy, hurl, hu, hcron, hs0, hs, scheduleBackup, h]
  · simp [initMain, truthy, hurl, hu, hcron, hs0, hs, scheduleBackup, h]

/-- Witness for C7 at a concrete environment, for both values of the
run-on-startup flag. -/
theorem claim_C7_witness :
    (initMain ⟨some "host/db", some "0 2 * * *", none⟩ true).scheduled = true ∧
    (initMain ⟨some "host/db", some "0 2 * * *", none⟩ true).immediateRuns = 0 ∧
    (initMain ⟨some "host/db", some "0 2 * * *", some "true"⟩ true).immediateRuns
      = 1 := by
  have h0 := claim_C7 ⟨some "host/db", some "0 2 * * *", none⟩ "host/db"
    "0 2 * * *" rfl (by decide) rfl (by decide)
  have h1 := claim_C7 ⟨some "host/db", some "0 2 * * *", some "true"⟩ "host/db"
    "0 2 * * *" rfl (by decide) rfl (by decide)
  exact ⟨h0.1, h0.2.1 (by decide), h1.2.2 rfl⟩

/-- C8: for a cadence expression that node-cron rejects, schedule
registration fails with the `InvalidSchedule` error and registers no
recurring trigger, and in the startup path that error is caught and
logged at registration (`Invalid CRON_JOB_INTERVAL format`) rather than
propagated: the startup function neither exits nor loses the rest of
its work. -/
theorem claim_C8 (env : InitEnv) (u s : String)
    (hurl : env.backupDatabaseUrl = some u) (hu : u ≠ "")
    (hcron : env.cronJobInterval = some s) (hs : jsTrim s ≠ "") :
    (scheduleBackup s false).1 = .error .invalidSchedule ∧
    (initMain env false).scheduled = false ∧
    LogEvent.invalidCronInterval ∈ (initMain env false).log ∧
    (initMain env false).exitCode = none := by
  have hs0 : s ≠ "" := by
    intro e
    apply hs
    rw [e]
    rfl
  refine ⟨rfl, ?_, ?_, ?_⟩ <;>
    simp [initMain, truthy, hurl, hu, hcron, hs0, hs, scheduleBackup]

/-- Witness for C8 at a concrete malformed cadence expression. -/
theorem claim_C8_witness :
    (scheduleBackup "not-a-cron" false).1 = .error .invalidSchedule ∧
    (initMain ⟨some "host/db", some "not-a-cron", none⟩ false).scheduled
      = false := by
  have h := claim_C8 ⟨some "host/db", some "not-a-cron", none⟩ "host/db"
    "not-a-cron" rfl (by decide) rfl (by decide)
  exact ⟨h.1, h.2.1⟩

end Doit

